import Mathlib

/-!
Shallow embedding of `gods.go`, a dwm status-bar generator, together with
proofs about its samplers and its rate formatter.

Modelling conventions:
* Go `int` is modelled as `Int` (arbitrary precision; the program never
  approaches 64-bit bounds on its intended inputs).  Go's `/` and `%` on
  integers truncate towards zero, so they are modelled by `Int.tdiv` and
  `Int.tmod`.
* Go `float32`/`float64` values appearing here (load average, average ping,
  meminfo values) are modelled by the exact fraction type `Frac` below; on
  the inputs the claims are about, the Go float arithmetic is exact, so the
  fraction semantics agrees with the binary floating point semantics.
* File and command inputs are modelled as `Option` values: `none` models a
  failing `os.Open` / `ioutil.ReadFile` / `exec.Command(...).Output()`.
* A Go runtime panic (out-of-range slice index) is modelled by a `none`
  result of the embedded function.
-/

namespace Gods

/-! ### Compile-time constants from the `const` block -/

def bpsSign : String := "b"

def kibpsSign : String := "K"

def mibpsSign : String := "M"

def batterySign100 : String := ""

def batterySign75 : String := ""

def batterySign50 : String := ""

def batterySign25 : String := ""

def batterySign10 : String := ""

def pluggedSign : String := ""

def cpuSign : String := ""

def cpuTempSign : String := ""

def memSign : String := ""

def netReceivedSign : String := "⮮"

def netTransmittedSign : String := "⮭"

def pingSign : String := "⭿"

def volSign : String := ""

def mutedSign : String := ""

def wifiSignFull : String := "⡆"

def wifiSignHalf : String := "⡄"

def wifiSignLow : String := "⡀"

def wifiSignOff : String := "⨯"

def keyboardSign : String := ""

def floatSeparator : String := "."

def dateSeparator : String := ""

def fieldSeparator : String := " "

/-- The `netDevs` allow-list of interface names (the keys of the Go map). -/
def netDevs : List String := ["eth0:", "eth1:", "wlan0:", "ppp0:", "wlp4s0:"]

/-! ### Decimal rendering helpers (Go `fmt` integer verbs) -/

/-- The ASCII digit character for `n < 10`. -/
def digitChar (n : Nat) : Char := Char.ofNat (48 + n)

/-- Decimal digits of `n`, most significant first.  Fuel-based structural
recursion so that the kernel can evaluate it (`fuel > number of digits`). -/
def natToStrAux : Nat → Nat → List Char
  | 0, _ => []
  | fuel + 1, n =>
    if n < 10 then [digitChar n]
    else natToStrAux fuel (n / 10) ++ [digitChar (n % 10)]

/-- Decimal rendering of a natural number, as Go `fmt` renders it. -/
def natToStr (n : Nat) : String := String.mk (natToStrAux (n + 1) n)

/-- Decimal rendering of an integer, as Go `fmt` renders it with `%d`. -/
def intToStr (i : Int) : String :=
  if i < 0 then "-" ++ natToStr i.natAbs else natToStr i.natAbs

/-- Left-pad with spaces to width `w`: Go's `%{w}d` field padding. -/
def padLeft (w : Nat) (s : String) : String :=
  String.mk (List.replicate (w - s.length) ' ') ++ s

/-- Go `fmt.Sprintf("%3d", i)` (and the other width verbs used here). -/
def fmtIntPad (w : Nat) (i : Int) : String := padLeft w (intToStr i)

/-- Replace the first occurrence of character `c` by `rep`: the semantics of
Go `strings.Replace(s, c, rep, 1)` for a one-character pattern. -/
def replaceFirstCharAux (c : Char) (rep : List Char) : List Char → List Char
  | [] => []
  | x :: xs => if x = c then rep ++ xs else x :: replaceFirstCharAux c rep xs

/-- String version of `replaceFirstCharAux`. -/
def replaceFirstChar (s : String) (c : Char) (rep : String) : String :=
  String.mk (replaceFirstCharAux c rep.data s.data)

/-! ### The rate formatter `fixed` -/

/-- Embeds `fixed(pre, rate)` from `gods.go`: fixed-width rate rendering with
unit tiers B/s, KiB/s, MiB/s, sentinel `" ERR"` for negative or overflowing
rates.  Go integer division/modulus truncate towards zero (`Int.tdiv`,
`Int.tmod`). -/
def fixed (pre : String) (rate : Int) : String :=
  if rate < 0 then pre ++ " ERR"
  else if rate ≥ 1000 * 1024 * 1024 then pre ++ " ERR"
  else
    let tier : Int × Int × String :=
      if rate ≥ 1000 * 1024 then
        (Int.tmod (Int.tdiv (Int.tdiv rate 1024) 102) 10,
         Int.tdiv rate (1024 * 1024), mibpsSign)
      else if rate ≥ 1000 then
        (Int.tmod (Int.tdiv rate 102) 10, Int.tdiv rate 1024, kibpsSign)
      else (0, rate, bpsSign)
    let decDigit := tier.1
    let r := tier.2.1
    let suf := tier.2.2
    let formated :=
      if r ≥ 100 then " " ++ fmtIntPad 3 r
      else if r ≥ 10 then fmtIntPad 2 r ++ "." ++ fmtIntPad 1 decDigit
      else " " ++ fmtIntPad 1 r ++ "." ++ fmtIntPad 1 decDigit
    pre ++ replaceFirstChar formated '.' floatSeparator ++ suf

/-! ### Token and number scanning (Go `fmt.Sscanf` / `strconv`) -/

/-- Split a character list at every character satisfying `p` (the separator
characters are dropped; empty pieces are kept, as in `String.split`). -/
def splitChars (p : Char → Bool) : List Char → List (List Char)
  | [] => [[]]
  | c :: cs =>
    let r := splitChars p cs
    if p c then [] :: r
    else
      match r with
      | [] => [[c]]
      | h :: t => (c :: h) :: t

/-- String-level splitting on a character predicate. -/
def goSplit (s : String) (p : Char → Bool) : List String :=
  (splitChars p s.data).map String.mk

/-- Whether `l` starts with `pat`: Go `strings.HasPrefix` on characters. -/
def startsWithList : List Char → List Char → Bool
  | [], _ => true
  | _ :: _, [] => false
  | p :: ps, c :: cs => p = c && startsWithList ps cs

/-- Embeds `strings.HasPrefix(s, pat)`. -/
def goHasPrefix (s pat : String) : Bool := startsWithList pat.data s.data

/-- Embeds `strings.Join(parts, sep)`. -/
def joinSep (sep : String) : List String → String
  | [] => ""
  | [x] => x
  | x :: y :: xs => x ++ sep ++ joinSep sep (y :: xs)

/-- Whitespace-separated tokens of a line, as `fmt.Sscanf` consumes them. -/
def tokenize (s : String) : List String :=
  (goSplit s fun c => c.isWhitespace).filter fun t => t ≠ ""

/-- Accumulate the value of a run of decimal digit characters; `none` on the
first non-digit. -/
def digitsValAux : Nat → List Char → Option Nat
  | acc, [] => some acc
  | acc, c :: cs =>
    if c.isDigit then digitsValAux (acc * 10 + (c.toNat - 48)) cs else none

/-- Value of a non-empty all-digit character list, else `none`. -/
def digitsVal : List Char → Option Nat
  | [] => none
  | l => digitsValAux 0 l

/-- Embeds `strconv.Atoi`: optional sign, then digits, nothing else.
(The Go range error for 64-bit overflow is not modelled; the program only
reads small kernel-supplied numbers.) -/
def goAtoi (s : String) : Option Int :=
  match s.data with
  | '-' :: ds => (digitsVal ds).map fun n => -(n : Int)
  | '+' :: ds => (digitsVal ds).map fun n => (n : Int)
  | ds => (digitsVal ds).map fun n => (n : Int)

/-- Embeds the `%d` verb of `fmt.Sscanf` applied to one token: parse an
optional sign and a maximal digit run, returning the value and the unread
remainder of the token; `none` when no digit is present. -/
def scanIntTok (l : List Char) : Option (Int × List Char) :=
  match l with
  | '-' :: rest =>
    let p := rest.span fun c => c.isDigit
    match digitsVal p.1 with
    | none => none
    | some n => some (-(n : Int), p.2)
  | '+' :: rest =>
    let p := rest.span fun c => c.isDigit
    match digitsVal p.1 with
    | none => none
    | some n => some ((n : Int), p.2)
  | _ =>
    let p := l.span fun c => c.isDigit
    match digitsVal p.1 with
    | none => none
    | some n => some ((n : Int), p.2)

/-- Embeds `strings.TrimSpace`: strip whitespace from both ends. -/
def goTrimSpace (s : String) : String :=
  String.mk (((s.data.dropWhile Char.isWhitespace).reverse.dropWhile
    Char.isWhitespace).reverse)

/-- Embeds `strings.Trim(s, " ")`: strip space characters from both ends. -/
def trimSpaces (s : String) : String :=
  String.mk (((s.data.dropWhile fun c => c = ' ').reverse.dropWhile
    fun c => c = ' ').reverse)

/-! ### Exact fractions standing in for the Go floats

`Frac` is an unnormalized fraction with kernel-computable operations; on the
decimal inputs of this program the Go float operations used (`+`, `-`, scaling
by powers of two and ten) are exact, so `Frac` reproduces them. -/

structure Frac where
  num : Int
  den : Nat
deriving DecidableEq

/-- Fraction addition (denominators multiply; no normalization). -/
def Frac.add (a b : Frac) : Frac := ⟨a.num * b.den + b.num * a.den, a.den * b.den⟩

/-- Fraction subtraction. -/
def Frac.sub (a b : Frac) : Frac := ⟨a.num * b.den - b.num * a.den, a.den * b.den⟩

/-- Divide a fraction by a natural number (Go float division by an exact
integer). -/
def Frac.divNat (a : Frac) (n : Nat) : Frac := ⟨a.num, a.den * n⟩

/-- Multiply a fraction by a natural number. -/
def Frac.mulNat (a : Frac) (n : Nat) : Frac := ⟨a.num * n, a.den⟩

/-- Floor of a fraction (denominators are kept positive by construction). -/
def Frac.floor (a : Frac) : Int := a.num / (a.den : Int)

/-- Truncation towards zero: Go's `int(f)` conversion. -/
def Frac.trunc (a : Frac) : Int := Int.tdiv a.num (a.den : Int)

/-- Boolean comparison `a ≤ b` by cross multiplication. -/
def Frac.ble (a b : Frac) : Bool := decide (a.num * b.den ≤ b.num * a.den)

/-- Absolute value. -/
def Frac.abs (a : Frac) : Frac := ⟨(a.num.natAbs : Int), a.den⟩

/-- Round to the nearest integer, ties to even: the rounding Go's `%.f`
formatting applies to an exactly representable value. -/
def Frac.roundHalfEven (q : Frac) : Int :=
  let f := q.floor
  let r := q.num - f * q.den
  if 2 * r < (q.den : Int) then f
  else if 2 * r > (q.den : Int) then f + 1
  else if f % 2 = 0 then f else f + 1

/-- Embeds Go `fmt.Sprintf("%.2f", x)` for the exactly-representable values
this program formats: round to two decimals (nearest, ties to even) and
render with exactly two fraction digits. -/
def sprintf2f (q : Frac) : String :=
  let n := Frac.roundHalfEven ⟨q.num * 100, q.den⟩
  let m := n.natAbs
  (if n < 0 then "-" else "") ++ natToStr (m / 100) ++ "." ++
    (if m % 100 < 10 then "0" ++ natToStr (m % 100) else natToStr (m % 100))

/-- Apply an explicit decimal exponent suffix to a parsed mantissa; `none`
when the `e` is not followed by digits (Go's `ParseFloat` then fails). -/
def parseFracExp (base : Frac) (l : List Char) : Option Frac :=
  let es : Bool × List Char :=
    match l with
    | '-' :: rest => (true, rest)
    | '+' :: rest => (false, rest)
    | rest => (false, rest)
  match digitsVal (es.2.takeWhile fun c => c.isDigit) with
  | none => none
  | some e =>
    if es.1 then some ⟨base.num, base.den * 10 ^ e⟩
    else some ⟨base.num * 10 ^ e, base.den⟩

/-- Parse the maximal float prefix of a character list, as the `%f` verb of
`fmt.Sscanf` does: optional sign, digits with an optional decimal point
(at least one digit in total), optional exponent.  Returns `none` when no
valid float starts the list. -/
def parseFracPrefix (l : List Char) : Option Frac :=
  let sign : Int × List Char :=
    match l with
    | '-' :: rest => (-1, rest)
    | '+' :: rest => (1, rest)
    | rest => (1, rest)
  let ip := sign.2.span fun c => c.isDigit
  let fp : List Char × List Char :=
    match ip.2 with
    | '.' :: rest => rest.span fun c => c.isDigit
    | _ => ([], ip.2)
  if ip.1 = [] ∧ fp.1 = [] then none
  else
    let mant : Nat := (digitsValAux 0 (ip.1 ++ fp.1)).getD 0
    let base : Frac := ⟨sign.1 * mant, 10 ^ fp.1.length⟩
    match fp.2 with
    | 'e' :: rest => parseFracExp base rest
    | 'E' :: rest => parseFracExp base rest
    | _ => some base

/-- Embeds `fmt.Sscanf(s, "%f", &x)`: skip leading blanks, then parse a
float prefix; `none` models a scan error. -/
def sscanfF (s : String) : Option Frac :=
  parseFracPrefix (s.data.dropWhile fun c => c = ' ' ∨ c = '\t')

/-! ### Network sampler (`updateNetUse`) -/

/-- The carried previous cumulative totals `rxOld`, `txOld`. -/
structure NetState where
  rxOld : Int
  txOld : Int
deriving DecidableEq

/-- The scan targets `dev`, `rx`, `tx` of the `Sscanf` in `updateNetUse`.
As in Go, a partially failing scan leaves the later variables at the values
they had from the previous line. -/
structure NetScanVars where
  dev : String
  rx : Int
  tx : Int
deriving DecidableEq

/-- Consume `k` tokens that must each fully parse as integers (the `void`
fields of the scan); `none` aborts the scan as a Go scan error would. -/
def scanVoids : Nat → List String → Option (List String)
  | 0, ts => some ts
  | _ + 1, [] => none
  | k + 1, t :: ts =>
    match scanIntTok t.data with
    | some (_, []) => scanVoids k ts
    | _ => none

/-- Embeds one iteration of the scanner loop of `updateNetUse`:
`fmt.Sscanf(line, "%s %d %d %d %d %d %d %d %d %d", &dev, &rx, 8×&void, &tx)`.
The scan stops at the first failing verb, leaving later variables unchanged,
and its error is ignored by the Go code. -/
def scanNetLine (v : NetScanVars) (line : String) : NetScanVars :=
  match tokenize line with
  | [] => v
  | t0 :: rest =>
    match rest with
    | [] => { v with dev := t0 }
    | t1 :: rest1 =>
      match scanIntTok t1.data with
      | none => { v with dev := t0 }
      | some (rxv, rem) =>
        if rem = [] then
          match scanVoids 7 rest1 with
          | none => { dev := t0, rx := rxv, tx := v.tx }
          | some ts =>
            match ts with
            | [] => { dev := t0, rx := rxv, tx := v.tx }
            | t9 :: _ =>
              match scanIntTok t9.data with
              | none => { dev := t0, rx := rxv, tx := v.tx }
              | some (txv, _) => { dev := t0, rx := rxv, tx := txv }
        else { dev := t0, rx := rxv, tx := v.tx }

/-- The scanner loop of `updateNetUse`: after scanning each line, the current
`dev`/`rx`/`tx` values are added to `rxNow`/`txNow` when `dev` is in the
allow-list. -/
def netAccum (lines : List String) : Int × Int :=
  (lines.foldl
    (fun (acc : NetScanVars × Int × Int) line =>
      let v := scanNetLine acc.1 line
      if v.dev ∈ netDevs then (v, acc.2.1 + v.rx, acc.2.2 + v.tx)
      else (v, acc.2.1, acc.2.2))
    (⟨"", 0, 0⟩, 0, 0)).2

/-- The average-ping fragment of `updateNetUse` as a function of the
`avgping` side file: absent file yields the empty fragment, an unparsable
file the literal zero fragment, and a parsed value `" ⭿ <int>ms"`. -/
def pingFragment (avgping : Option String) : String :=
  match avgping with
  | none => ""
  | some content =>
    match sscanfF content with
    | none => " " ++ pingSign ++ "0.0ms"
    | some pingAvg => " " ++ pingSign ++ " " ++ intToStr pingAvg.trunc ++ "ms"

/-- Embeds `updateNetUse`.  Inputs: the lines of `/proc/net/dev` (`none`
models a failing `os.Open`), the content of the avgping side file, and the
carried state.  Returns the fragment and the new state (the deferred
`rxOld, txOld = rxNow, txNow` runs only when the file was opened). -/
def updateNetUse (netdev : Option (List String)) (avgping : Option String)
    (st : NetState) : String × NetState :=
  match netdev with
  | none => (netReceivedSign ++ " ERR " ++ netTransmittedSign ++ " ERR", st)
  | some lines =>
    let now := netAccum lines
    (fixed netReceivedSign (now.1 - st.rxOld) ++ " " ++
      fixed netTransmittedSign (now.2 - st.txOld) ++ pingFragment avgping,
     ⟨now.1, now.2⟩)

/-! ### Battery sampler (`updatePower`) -/

/-- One directory entry under `/sys/class/power_supply/`: its name and its
readable files (`readFile f` models `ioutil.ReadFile(powerSupply+name+"/"+f)`). -/
structure BattEntry where
  name : String
  readFile : String → Option String

/-- Embeds the `readval` closure of `updatePower`: prefer `energy_<field>`,
fall back to `charge_<field>`, and yield 0 when neither reads nor parses. -/
def readval (b : BattEntry) (field : String) : Int :=
  let file : Option String :=
    match b.readFile ("energy_" ++ field) with
    | some tmp => some tmp
    | none =>
      match b.readFile ("charge_" ++ field) with
      | some tmp => some tmp
      | none => none
  match file with
  | none => 0
  | some f =>
    match goAtoi (goTrimSpace f) with
    | some ret => ret
    | none => 0

/-- Embeds `updatePower`.  Inputs: the content of `AC/online` (`none` models
an unreadable plug-status file) and the directory listing (`none` models a
failing `ReadDir`). -/
def updatePower (plugged : Option String) (batts : Option (List BattEntry)) :
    String :=
  match plugged with
  | none => "|ERR"
  | some plugged =>
    match batts with
    | none => "|ERR"
    | some batts =>
      let en : Int × Int := batts.foldl
        (fun acc b =>
          if goHasPrefix b.name "BAT" then
            (acc.1 + readval b "full", acc.2 + readval b "now")
          else acc)
        (0, 0)
      if en.1 = 0 then "|ERR"
      else
        let enPerc : Int := Int.tdiv (en.2 * 100) en.1
        let pick : String × String :=
          if plugged = "1\n" then
            (pluggedSign, if enPerc ≤ 98 then "" else "\uF12A")
          else if enPerc ≤ 10 then (batterySign10, "\uF12A")
          else if enPerc ≤ 25 then (batterySign25, "\uF12A")
          else if enPerc ≤ 50 then (batterySign50, "\uF12A")
          else if enPerc ≤ 75 then (batterySign75, "\uF12A")
          else if enPerc ≤ 100 then (batterySign100, "")
          else (batterySign100, "\uF12A")
        pick.1 ++ pick.2 ++ fmtIntPad 3 enPerc ++ "%"

/-! ### Power-time sampler (`updatePowerTime`) -/

/-- When the character list starts with a `\d\d:\d\d:\d\d` shape, those eight
characters; otherwise `none`. -/
def timeAt (l : List Char) : Option (List Char) :=
  match l with
  | d1 :: d2 :: c1 :: d3 :: d4 :: c2 :: d5 :: d6 :: _ =>
    if d1.isDigit ∧ d2.isDigit ∧ c1 = ':' ∧ d3.isDigit ∧ d4.isDigit ∧
        c2 = ':' ∧ d5.isDigit ∧ d6.isDigit then
      some [d1, d2, c1, d3, d4, c2, d5, d6]
    else none
  | _ => none

/-- The last `\d\d:\d\d:\d\d` occurrence in a character list (the one a
greedy leading dot-star hands to the capture group). -/
def lastTime : List Char → Option (List Char)
  | [] => none
  | c :: cs =>
    match lastTime cs with
    | some r => some r
    | none => timeAt (c :: cs)

/-- Auxiliary for `findTimeSubmatch`: first line with a time occurrence,
together with the capture. -/
def firstTimeLine : List String → Option (String × String)
  | [] => none
  | ln :: rest =>
    match lastTime ln.data with
    | some cap => some (ln, String.mk cap)
    | none => firstTimeLine rest

/-- Embeds `regexp.MustCompile(".*(dd:dd:dd).*").FindStringSubmatch` (with
`d` standing for a digit class): the dot does not match a newline, so the
leftmost match lies entirely on the first line containing the shape; the
greedy dot-stars extend the full match to the whole line and hand the last
occurrence on that line to the capture group.  A nil result is the empty
list; a match is `[full, capture]`. -/
def findTimeSubmatch (s : String) : List String :=
  match firstTimeLine (goSplit s fun c => c = '\n') with
  | none => []
  | some (full, cap) => [full, cap]

/-- Embeds `updatePowerTime`: run `acpi -b` (`none` models a failing
command), extract the time via the regexp, truncate to `HH:MM`.
`acpiMatch[1]` on a nil (empty) match slice is a Go runtime panic, modelled
by the `none` result. -/
def updatePowerTime (cmdOut : Option String) : Option String :=
  match cmdOut with
  | none => some "unknown"
  | some acpi =>
    let acpiMatch := findTimeSubmatch acpi
    if acpiMatch.length = 1 then some "unknown"
    else
      match acpiMatch.get? 1 with
      | none => none
      | some g => some (String.mk (g.data.take 5))

/-! ### CPU-load sampler (`updateCPUUse`) -/

/-- Embeds `updateCPUUse`: parse the first float of `/proc/loadavg`, scale by
`100/cores`, truncate to int.  `cores` is the process-wide
`runtime.NumCPU()` value. -/
def updateCPUUse (loadavg : Option String) (cores : Nat) : String :=
  match loadavg with
  | none => cpuSign ++ "ERR"
  | some s =>
    match sscanfF s with
    | none => cpuSign ++ "ERR"
    | some load =>
      cpuSign ++ fmtIntPad 3 ((load.mulNat 100).divNat cores).trunc ++ "%"

/-! ### Memory sampler (`updateMemUse`) -/

/-- Embeds `fmt.Sscanf(line, "%s %f", &prop, &val)`: the first token is the
property name, the second must start with a float. -/
def parseMemLine (line : String) : Option (String × Frac) :=
  match tokenize line with
  | t0 :: t1 :: _ => (parseFracPrefix t1.data).map fun v => (t0, v)
  | _ => none

/-- The scanner loop of `updateMemUse`: `done` is the label bitmask, the
loop stops once `done = 15` or the lines are exhausted; a line that does not
scan as `<name> <number>` aborts with `none` (the ERR return). -/
def memScan : Frac → Frac → Nat → List String → Option (Frac × Frac)
  | used, total, _, [] => some (used, total)
  | used, total, done, line :: rest =>
    if done = 15 then some (used, total)
    else
      match parseMemLine line with
      | none => none
      | some pv =>
        if pv.1 = "MemTotal:" then memScan (used.add pv.2) pv.2 (done ||| 1) rest
        else if pv.1 = "MemFree:" then memScan (used.sub pv.2) total (done ||| 2) rest
        else if pv.1 = "Buffers:" then memScan (used.sub pv.2) total (done ||| 4) rest
        else if pv.1 = "Cached:" then memScan (used.sub pv.2) total (done ||| 8) rest
        else memScan used total done rest

/-- The non-error output shape of `updateMemUse`: both accumulators divided
by 1024² and rendered with `%.2f`. -/
def memRender (used total : Frac) : String :=
  memSign ++ " " ++ sprintf2f ((used.divNat 1024).divNat 1024) ++ "/" ++
    sprintf2f ((total.divNat 1024).divNat 1024) ++ "GB"

/-- Embeds `updateMemUse`: scan `/proc/meminfo` (`none` models a failing
`os.Open`) accumulating `used = MemTotal - MemFree - Buffers - Cached` and
`total = MemTotal`, then render in GB. -/
def updateMemUse (meminfo : Option (List String)) : String :=
  match meminfo with
  | none => memSign ++ "ERR"
  | some lines =>
    match memScan ⟨0, 1⟩ ⟨0, 1⟩ 0 lines with
    | none => memSign ++ "ERR"
    | some ut => memRender ut.1 ut.2

/-! ### Volume sampler (`updateVolume`)

The Go code matches
`(?s).*volume: front-left: .* (\d*%) /.*front-right: .* (\d*%).*muted: (yes|no).*`
against the `pacmd list-sinks` output.  With `(?s)` the dot matches
newlines; the engine is leftmost-first with greedy stars, which the chain
`mv1` … `mv10` below implements by trying the longest dot-star split
first. -/

/-- All splits `l = front ++ back` of a character list, longest `front`
first: the candidate consumptions of a greedy `.*`. -/
def splitsDesc : List Char → List (List Char × List Char)
  | [] => [([], [])]
  | c :: cs =>
    ((splitsDesc cs).map fun p => (c :: p.1, p.2)) ++ [([], c :: cs)]

/-- First `some` produced by `f` along a list (backtracking search order). -/
def firstSome {α β : Type} (f : α → Option β) : List α → Option β
  | [] => none
  | a :: rest =>
    match f a with
    | some b => some b
    | none => firstSome f rest

/-- Require the literal `pat` as a prefix and return the remainder. -/
def dropLit : List Char → List Char → Option (List Char)
  | [], l => some l
  | _ :: _, [] => none
  | p :: ps, c :: cs => if p = c then dropLit ps cs else none

/-- Match the capture `(\d*%)`: a maximal digit run followed by `%`
(taking fewer digits can never help, as the next character would still be a
digit, not `%`). -/
def mPct (l : List Char) : Option (List Char × List Char) :=
  let p := l.span fun c => c.isDigit
  match p.2 with
  | '%' :: r => some (p.1 ++ ['%'], r)
  | _ => none

/-- Match the capture `(yes|no)`, alternatives in regex order. -/
def mMuted (l : List Char) : Option (List Char × List Char) :=
  match dropLit "yes".data l with
  | some r => some ("yes".data, r)
  | none =>
    match dropLit "no".data l with
    | some r => some ("no".data, r)
    | none => none

/-- Tail of the volume pattern: `muted: (yes|no).*`. -/
def mv10 (l : List Char) : Option (List Char) :=
  match dropLit "muted: ".data l with
  | none => none
  | some r => (mMuted r).map fun p => p.1

/-- `.*muted: (yes|no).*` — greedy dot-star, then `mv10`. -/
def mv9 (l : List Char) : Option (List Char) :=
  firstSome (fun p => mv10 p.2) (splitsDesc l)

/-- ` (\d*%)` then the rest of the pattern, returning captures 2 and 3. -/
def mv8 (l : List Char) : Option (List Char × List Char) :=
  match l with
  | ' ' :: r =>
    match mPct r with
    | none => none
    | some (c2, r2) => (mv9 r2).map fun c3 => (c2, c3)
  | _ => none

/-- `.* (\d*%)...` after `front-right: ` — greedy dot-star, then `mv8`. -/
def mv7 (l : List Char) : Option (List Char × List Char) :=
  firstSome (fun p => mv8 p.2) (splitsDesc l)

/-- `front-right: .* (\d*%)...`. -/
def mv6 (l : List Char) : Option (List Char × List Char) :=
  match dropLit "front-right: ".data l with
  | none => none
  | some r => mv7 r

/-- `.*front-right: ...` — greedy dot-star, then `mv6`. -/
def mv5 (l : List Char) : Option (List Char × List Char) :=
  firstSome (fun p => mv6 p.2) (splitsDesc l)

/-- ` (\d*%) /` then the rest, returning captures 1–3. -/
def mv4 (l : List Char) : Option (List Char × List Char × List Char) :=
  match l with
  | ' ' :: r =>
    match mPct r with
    | none => none
    | some (c1, r2) =>
      match dropLit " /".data r2 with
      | none => none
      | some r3 => (mv5 r3).map fun p => (c1, p.1, p.2)
  | _ => none

/-- `.* (\d*%) /...` after `front-left: ` — greedy dot-star, then `mv4`. -/
def mv3 (l : List Char) : Option (List Char × List Char × List Char) :=
  firstSome (fun p => mv4 p.2) (splitsDesc l)

/-- `volume: front-left: .* (\d*%) /...`. -/
def mv2 (l : List Char) : Option (List Char × List Char × List Char) :=
  match dropLit "volume: front-left: ".data l with
  | none => none
  | some r => mv3 r

/-- Leading `.*` of the volume pattern — greedy, then `mv2`. -/
def mv1 (l : List Char) : Option (List Char × List Char × List Char) :=
  firstSome (fun p => mv2 p.2) (splitsDesc l)

/-- Embeds `mutedRx.FindStringSubmatch(pacmd)`: nil (no match) is the empty
list; a match is `[full, cap1, cap2, cap3]`, and with the leading and
trailing `(?s)`-dot-stars the full match is the whole string. -/
def matchVolume (s : String) : List String :=
  match mv1 s.data with
  | none => []
  | some (c1, c2, c3) => [s, String.mk c1, String.mk c2, String.mk c3]

/-- Embeds `updateVolume`: `none` input models a failing `pacmd list-sinks`.
The Go code indexes `pacmdMatch[3]` and `pacmdMatch[1]` without checking
that a match was found; on a nil match slice that is a runtime panic,
modelled by the `none` result. -/
def updateVolume (cmdOut : Option String) : Option String :=
  match cmdOut with
  | none => some (mutedSign ++ " ERR")
  | some pacmd =>
    let pacmdMatch := matchVolume pacmd
    match pacmdMatch.get? 3 with
    | none => none
    | some m3 =>
      let sign := if m3 = "yes" then mutedSign else volSign
      match pacmdMatch.get? 1 with
      | none => none
      | some m1 => some (sign ++ " " ++ m1)

/-! ### Wifi sampler (`updateWifi`) -/

/-- Embeds `updateWifi`: `none` models a failing `awk` invocation; the
string is its standard output, space-trimmed, then parsed as an integer
strength percentage. -/
def updateWifi (cmdOut : Option String) : String :=
  match cmdOut with
  | none => wifiSignOff ++ " ERR"
  | some out =>
    let strength := trimSpaces out
    if strength ≠ "" then
      match goAtoi strength with
      | none => wifiSignOff ++ " ERR"
      | some strengthInt =>
        let wifiSign :=
          if strengthInt > 70 then wifiSignFull
          else if strengthInt > 50 then wifiSignHalf
          else if strengthInt > 20 then wifiSignLow
          else wifiSignOff
        if strengthInt ≥ 100 then wifiSign ++ "" ++ strength ++ "%"
        else if strengthInt ≥ 10 then wifiSign ++ " " ++ strength ++ "%"
        else wifiSign ++ "  " ++ strength ++ "%"
    else wifiSignOff ++ " 0%"

/-! ### CPU-temperature sampler (`updateCPUTemp`) -/

/-- Embeds `updateCPUTemp`: scan the thermal-zone file keeping the last
line, `Atoi` it, divide by 1000 (Go truncating division), render `<t>°C`. -/
def updateCPUTemp (thermal : Option (List String)) : String :=
  match thermal with
  | none => cpuTempSign ++ " ERR"
  | some lines =>
    let tempStr := lines.getLast?.getD " ERR"
    match goAtoi tempStr with
    | none => cpuTempSign ++ " ERR"
    | some temp => cpuTempSign ++ " " ++ intToStr (Int.tdiv temp 1000) ++ "°C"

/-! ### Keyboard sampler (`updateKeyboard`) -/

/-- Embeds `updateKeyboard`: the last line of the xmodmap state file, or
`"default"` when the file is absent or empty. -/
def updateKeyboard (stateFile : Option (List String)) : String :=
  match stateFile with
  | none => keyboardSign ++ " default"
  | some lines => keyboardSign ++ " " ++ lines.getLast?.getD "default"

/-! ### Distro sign (`getDistroSign`) -/

/-- The last position of `l` where `arch` or `slack` starts (the occurrence
a greedy leading dot-star hands to the capture), with the alternatives tried
in regex order at each position. -/
def lastAlt : List Char → Option (List Char)
  | [] => none
  | c :: cs =>
    match lastAlt cs with
    | some r => some r
    | none =>
      if startsWithList "arch".data (c :: cs) then some "arch".data
      else if startsWithList "slack".data (c :: cs) then some "slack".data
      else none

/-- Auxiliary for `findDistroSubmatch`: first line containing `arch` or
`slack`, with the capture. -/
def firstAltLine : List String → Option (String × String)
  | [] => none
  | ln :: rest =>
    match lastAlt ln.data with
    | some cap => some (ln, String.mk cap)
    | none => firstAltLine rest

/-- Embeds `distroRx.FindStringSubmatch(uname)` for `.*(arch|slack).*`: the
dot does not match newlines, so the leftmost match lies on the first line
containing an alternative; greedy dot-stars make the full match that whole
line and hand the last occurrence to the capture. -/
def findDistroSubmatch (s : String) : List String :=
  match firstAltLine (goSplit s fun c => c = '\n') with
  | none => []
  | some (full, cap) => [full, cap]

/-- Embeds `getDistroSign`: `none` input models a failing `uname -a`.  As in
`updatePowerTime`, a successful command whose output matches neither
alternative leads to `distroMatch[1]` on a nil slice — a runtime panic,
modelled by `none`. -/
def getDistroSign (cmdOut : Option String) : Option String :=
  match cmdOut with
  | none => some ""
  | some uname =>
    let distroMatch := findDistroSubmatch uname
    if distroMatch.length = 1 then some ""
    else
      match distroMatch.get? 1 with
      | none => none
      | some g =>
        if g = "arch" then some ""
        else if g = "slack" then some ""
        else some ""

/-! ### The tick loop (`main`) -/

/-- The per-tick inputs of one loop iteration: every file and command the
samplers read, the formatted local-time fragment, and the core count
computed at process start.  `none` models an absent/failing source. -/
structure World where
  pacmd : Option String
  wifiCmd : Option String
  netdev : Option (List String)
  avgping : Option String
  loadavg : Option String
  thermal : Option (List String)
  meminfo : Option (List String)
  acOnline : Option String
  battDir : Option (List BattEntry)
  acpiOut : Option String
  dateStr : String
  keyboardFile : Option (List String)
  unameOut : Option String
  cores : Nat

/-- Embeds one iteration of the `main` loop: build the `status` slice in
source order (the distro sign is computed from `uname -a` once at startup,
before the loop) and join it with the field separator.  The result is the
line handed to `xsetroot -name` plus the updated network state; `none`
models a tick aborted by a sampler panic. -/
def tick (w : World) (st : NetState) : Option (String × NetState) :=
  match getDistroSign w.unameOut with
  | none => none
  | some distroSign =>
    match updateVolume w.pacmd with
    | none => none
    | some vol =>
      match updatePowerTime w.acpiOut with
      | none => none
      | some pt =>
        let net := updateNetUse w.netdev w.avgping st
        let status : List String :=
          ["", vol, updateWifi w.wifiCmd, net.1,
           updateCPUUse w.loadavg w.cores, updateCPUTemp w.thermal,
           updateMemUse w.meminfo, updatePower w.acOnline w.battDir, pt,
           w.dateStr, updateKeyboard w.keyboardFile, distroSign]
        some (joinSep fieldSeparator status, net.2)

/-- The world in which every backing file and external command is absent. -/
def allAbsent (dateStr : String) (cores : Nat) : World :=
  ⟨none, none, none, none, none, none, none, none, none, none, dateStr,
   none, none, cores⟩

/-- The status line composed when every sampler takes its failure path. -/
def failLine (dateStr : String) : String :=
  joinSep fieldSeparator
    ["", mutedSign ++ " ERR", wifiSignOff ++ " ERR",
     netReceivedSign ++ " ERR " ++ netTransmittedSign ++ " ERR",
     cpuSign ++ "ERR", cpuTempSign ++ " ERR", memSign ++ "ERR", "|ERR",
     "unknown", dateStr, keyboardSign ++ " default", ""]

/-- Embeds the end-of-tick sleep computation
`now.Truncate(time.Second).Add(time.Second).Sub(now)`: `now` is a wall-clock
instant in nanoseconds since the zero time, `Truncate` rounds down to a
multiple of one second (10⁹ ns), and the result is the duration slept. -/
def sleepDuration (now : Nat) : Int :=
  ((now - now % 1000000000 : Nat) : Int) + 1000000000 - (now : Int)

/-! ### Concrete inputs used by individual claims -/

/-- The synthetic meminfo input of the memory-sampler test scenario. -/
def memLines6 : List String :=
  ["MemTotal: 16000000", "MemFree: 8000000", "Buffers: 1000000",
   "Cached: 2000000"]

/-- A battery exposing energy-unit readings. -/
def batBAT0 : BattEntry :=
  ⟨"BAT0", fun f =>
    if f = "energy_full" then some "3000\n"
    else if f = "energy_now" then some "1000\n"
    else none⟩

/-- A battery exposing only charge-unit readings (exercises the fallback). -/
def batBAT1 : BattEntry :=
  ⟨"BAT1", fun f =>
    if f = "charge_full" then some "2000\n"
    else if f = "charge_now" then some "1500\n"
    else none⟩

/-- A non-battery power-supply entry, skipped by the `BAT` prefix filter. -/
def batAC : BattEntry := ⟨"AC", fun f => if f = "online" then some "0\n" else none⟩

/-! ### Theorems -/

/-- Claim C8: the end-of-tick sleep duration is positive, at most one
second, lands exactly on a second boundary, and equals the remaining time
to the next second boundary — so ticks start on second boundaries instead
of drifting by the sampling duration. -/
theorem C8_sleep_boundary (now : Nat) :
    0 < sleepDuration now ∧ sleepDuration now ≤ 1000000000 ∧
    ((now : Int) + sleepDuration now) % 1000000000 = 0 ∧
    (now : Int) + sleepDuration now =
      ((now - now % 1000000000 : Nat) : Int) + 1000000000 := by
  unfold sleepDuration
  omega

/-- Claim C4 (code behaviour at the claimed inputs): a failing `acpi -b`
yields `"unknown"`, and a match yields the first five characters of the
captured time; but a successful command whose output contains no
`HH:MM:SS` shape makes `FindStringSubmatch` return a nil slice, the
`len == 1` guard does not catch it, and `acpiMatch[1]` panics (modelled by
`none`) instead of returning `"unknown"`. -/
theorem C4_powertime_panic :
    updatePowerTime none = some "unknown" ∧
    updatePowerTime (some "") = none ∧
    updatePowerTime
      (some "Battery 0: Discharging, 50%, rate information unavailable") =
      none ∧
    updatePowerTime (some "Battery 0: Discharging, 50%, 01:23:45 remaining") =
      some "01:23" := by
  refine ⟨rfl, rfl, rfl, rfl⟩

/-- Claim C5: with per-battery readings summing to `full = 5000` and
`now = 2500` (spread over one energy-unit and one charge-unit battery, a
non-`BAT` entry skipped) and the plug-status file reading unplugged, the
percentage is exactly `2500*100/5000 = 50` (Go truncating division) and the
icon is the ≤50 bucket icon, which differs from the ≤75 bucket icon. -/
theorem C5_battery_fifty_percent :
    updatePower (some "0\n") (some [batAC, batBAT0, batBAT1]) =
      batterySign50 ++ "" ++ " 50%" ∧
    Int.tdiv (2500 * 100) 5000 = 50 ∧
    batterySign50 ≠ batterySign75 := by
  refine ⟨rfl, by decide, by decide⟩

/-- Claim C6: on the synthetic meminfo input the sampler accumulates
`used = 16000000 - 8000000 - 1000000 - 2000000 = 5000000` and
`total = 16000000` (kilobytes), divides both by 1024², and renders
`4.77/15.26` with two decimals; the rendered values are within 0.01 of the
exact quotients. -/
theorem C6_meminfo_values :
    updateMemUse (some memLines6) = memSign ++ " 4.77/15.26GB" ∧
    memScan ⟨0, 1⟩ ⟨0, 1⟩ 0 memLines6 = some (⟨5000000, 1⟩, ⟨16000000, 1⟩) ∧
    Frac.ble
      (Frac.abs (Frac.sub (Frac.divNat (Frac.divNat ⟨5000000, 1⟩ 1024) 1024)
        ⟨477, 100⟩)) ⟨1, 100⟩ = true ∧
    Frac.ble
      (Frac.abs (Frac.sub (Frac.divNat (Frac.divNat ⟨16000000, 1⟩ 1024) 1024)
        ⟨1526, 100⟩)) ⟨1, 100⟩ = true := by
  refine ⟨by decide, by decide, by decide, by decide⟩

/-! ### Lemmas about the decimal rendering helpers -/

/-- Replacing `.` by the separator `.` is the identity on characters. -/
theorem replaceAux_dot_id (l : List Char) :
    replaceFirstCharAux '.' ['.'] l = l := by
  induction l with
  | nil => rfl
  | cons x xs ih =>
    rw [replaceFirstCharAux]
    by_cases h : x = '.'
    · subst h; simp
    · rw [if_neg h, ih]

/-- With `floatSeparator = "."`, the replacement inside `fixed` is the
identity. -/
theorem replaceFirstChar_dot (s : String) :
    replaceFirstChar s '.' floatSeparator = s := by
  cases s with
  | mk l =>
    show String.mk (replaceFirstCharAux '.' ['.'] l) = String.mk l
    rw [replaceAux_dot_id]

theorem length_mk (l : List Char) : (String.mk l).length = l.length := rfl

/-- One-digit numbers render as a single digit character (any positive fuel). -/
theorem natToStrAux_small (fuel n : Nat) (hf : 0 < fuel) (h : n < 10) :
    natToStrAux fuel n = [digitChar n] := by
  cases fuel with
  | zero => omega
  | succ f => rw [natToStrAux, if_pos h]

theorem natToStr_len1 (n : Nat) (h : n < 10) : (natToStr n).length = 1 := by
  rw [natToStr, natToStrAux_small (n + 1) n (by omega) h]
  rfl

theorem natToStrAux_len2 (fuel n : Nat) (hf : 2 ≤ fuel) (h1 : 10 ≤ n)
    (h2 : n < 100) : (natToStrAux fuel n).length = 2 := by
  cases fuel with
  | zero => omega
  | succ f =>
    rw [natToStrAux, if_neg (by omega),
      natToStrAux_small f (n / 10) (by omega) (by omega)]
    rfl

theorem natToStr_len2 (n : Nat) (h1 : 10 ≤ n) (h2 : n < 100) :
    (natToStr n).length = 2 := by
  rw [natToStr, length_mk, natToStrAux_len2 (n + 1) n (by omega) h1 h2]

theorem natToStrAux_len3 (fuel n : Nat) (hf : 3 ≤ fuel) (h1 : 100 ≤ n)
    (h2 : n < 1000) : (natToStrAux fuel n).length = 3 := by
  cases fuel with
  | zero => omega
  | succ f =>
    rw [natToStrAux, if_neg (by omega), List.length_append,
      natToStrAux_len2 f (n / 10) (by omega) (by omega) (by omega)]
    rfl

theorem natToStr_len3 (n : Nat) (h1 : 100 ≤ n) (h2 : n < 1000) :
    (natToStr n).length = 3 := by
  rw [natToStr, length_mk, natToStrAux_len3 (n + 1) n (by omega) h1 h2]

/-- Every character produced by `natToStrAux` is a decimal digit. -/
theorem natToStrAux_digits (fuel : Nat) :
    ∀ n c, c ∈ natToStrAux fuel n → ∃ k, k < 10 ∧ c = digitChar k := by
  induction fuel with
  | zero => intro n c h; simp [natToStrAux] at h
  | succ f ih =>
    intro n c h
    rw [natToStrAux] at h
    by_cases h10 : n < 10
    · rw [if_pos h10] at h
      simp at h
      exact ⟨n, h10, h⟩
    · rw [if_neg h10, List.mem_append] at h
      rcases h with h | h
      · exact ih (n / 10) c h
      · simp at h
        exact ⟨n % 10, by omega, h⟩

theorem digitChar_ne_dot (k : Nat) (h : k < 10) : digitChar k ≠ '.' := by
  interval_cases k <;> decide

theorem dot_not_mem_natToStr (n : Nat) : '.' ∉ (natToStr n).data := by
  intro h
  obtain ⟨k, hk, he⟩ := natToStrAux_digits (n + 1) n '.' h
  exact digitChar_ne_dot k hk he.symm

theorem intToStr_coe (n : Nat) : intToStr (n : Int) = natToStr n := by
  rw [intToStr, if_neg (by omega), Int.natAbs_ofNat]

theorem padLeft_length (w : Nat) (s : String) :
    (padLeft w s).length = (w - s.length) + s.length := by
  rw [padLeft, String.length_append, length_mk, List.length_replicate]

theorem fmtIntPad_len (w n : Nat) (h : (natToStr n).length ≤ w) :
    (fmtIntPad w (n : Int)).length = w := by
  rw [fmtIntPad, intToStr_coe, padLeft_length]
  omega

/-- The four-character width of the value field of `fixed`, for any scaled
rate below 1000 and any decimal digit below 10. -/
theorem formatedLen (a dec : Int) (h0 : 0 ≤ a) (h1 : a < 1000)
    (hd0 : 0 ≤ dec) (hd1 : dec < 10) :
    (if a ≥ 100 then " " ++ fmtIntPad 3 a
     else if a ≥ 10 then fmtIntPad 2 a ++ "." ++ fmtIntPad 1 dec
     else " " ++ fmtIntPad 1 a ++ "." ++ fmtIntPad 1 dec).length = 4 := by
  obtain ⟨n, rfl⟩ : ∃ n : Nat, a = (n : Int) :=
    ⟨a.toNat, (Int.toNat_of_nonneg h0).symm⟩
  obtain ⟨k, rfl⟩ : ∃ k : Nat, dec = (k : Int) :=
    ⟨dec.toNat, (Int.toNat_of_nonneg hd0).symm⟩
  have hn : n < 1000 := by exact_mod_cast h1
  have hk : k < 10 := by exact_mod_cast hd1
  by_cases hA : (n : Int) ≥ 100
  · have hn1 : 100 ≤ n := by exact_mod_cast hA
    rw [if_pos hA, String.length_append,
      fmtIntPad_len 3 n (by rw [natToStr_len3 n hn1 hn])]
    rfl
  · have hn2 : n < 100 := by
      have := not_le.mp hA
      exact_mod_cast this
    rw [if_neg hA]
    by_cases hB : (n : Int) ≥ 10
    · have hn1 : 10 ≤ n := by exact_mod_cast hB
      rw [if_pos hB, String.length_append, String.length_append,
        fmtIntPad_len 2 n (by rw [natToStr_len2 n hn1 hn2]),
        fmtIntPad_len 1 k (by rw [natToStr_len1 k hk])]
      rfl
    · have hn1 : n < 10 := by
        have := not_le.mp hB
        exact_mod_cast this
      rw [if_neg hB, String.length_append, String.length_append,
        String.length_append,
        fmtIntPad_len 1 n (by rw [natToStr_len1 n hn1]),
        fmtIntPad_len 1 k (by rw [natToStr_len1 k hk])]
      rfl

/-- Fixed width of the formatter on its non-error domain: prefix plus five
characters. -/
theorem fixed_length (pre : String) (r : Int) (h0 : 0 ≤ r)
    (h1 : r < 1000 * 1024 * 1024) :
    (fixed pre r).length = pre.length + 5 := by
  rw [fixed, if_neg (by omega), if_neg (by omega)]
  by_cases hM : r ≥ 1000 * 1024
  · have e1 : Int.tdiv r 1024 = r / 1024 := Int.tdiv_eq_ediv (by omega) (by norm_num)
    have e2 : Int.tdiv (r / 1024) 102 = r / 1024 / 102 :=
      Int.tdiv_eq_ediv (by omega) (by norm_num)
    have e3 : Int.tdiv r (1024 * 1024) = r / (1024 * 1024) :=
      Int.tdiv_eq_ediv (by omega) (by norm_num)
    have e4 : Int.tmod (r / 1024 / 102) 10 = r / 1024 / 102 % 10 :=
      Int.tmod_eq_emod (by omega) (by norm_num)
    rw [if_pos hM]
    dsimp only
    rw [e1, e2, e4, e3, replaceFirstChar_dot, String.length_append,
      String.length_append,
      formatedLen (r / (1024 * 1024)) (r / 1024 / 102 % 10) (by omega)
        (by omega) (by omega) (by omega)]
    rfl
  · rw [if_neg hM]
    by_cases hK : r ≥ 1000
    · have e1 : Int.tdiv r 102 = r / 102 := Int.tdiv_eq_ediv (by omega) (by norm_num)
      have e2 : Int.tdiv r 1024 = r / 1024 := Int.tdiv_eq_ediv (by omega) (by norm_num)
      have e4 : Int.tmod (r / 102) 10 = r / 102 % 10 :=
        Int.tmod_eq_emod (by omega) (by norm_num)
      rw [if_pos hK]
      dsimp only
      rw [e1, e4, e2, replaceFirstChar_dot, String.length_append,
        String.length_append,
        formatedLen (r / 1024) (r / 102 % 10) (by omega) (by omega) (by omega)
          (by omega)]
      rfl
    · rw [if_neg hK]
      dsimp only
      rw [replaceFirstChar_dot, String.length_append, String.length_append,
        formatedLen r 0 (by omega) (by omega) (by omega) (by omega)]
      rfl

/-- Claim C1: `fixed(pre, r)` returns `pre ++ " ERR"` exactly when `r < 0`
or `r ≥ 1000·1024·1024`; on all other rates the output has width
`pre.length + 5`, so it can never coincide with the four-character ERR
form. -/
theorem C1_fixed_err_iff (pre : String) (r : Int) :
    fixed pre r = pre ++ " ERR" ↔ (r < 0 ∨ 1000 * 1024 * 1024 ≤ r) := by
  constructor
  · intro h
    by_contra hc
    push_neg at hc
    obtain ⟨h0, h1⟩ := hc
    have hl := fixed_length pre r (by omega) h1
    rw [h, String.length_append] at hl
    have he : (" ERR" : String).length = 4 := rfl
    omega
  · intro h
    rcases h with h | h
    · rw [fixed, if_pos h]
    · rw [fixed, if_neg (by omega), if_pos (by omega)]

/-- Claim C3: on `0 ≤ r < 1000·1024·1024` the formatter output always has
the same length, namely the prefix length plus five characters. -/
theorem C3_fixed_width (pre : String) (r : Int) (h0 : 0 ≤ r)
    (h1 : r < 1000 * 1024 * 1024) :
    (fixed pre r).length = pre.length + 5 :=
  fixed_length pre r h0 h1

/-- Witness for C3 at `pre = "ab"`, `r = 123456`. -/
theorem C3_fixed_width_witness :
    ((0 : Int) ≤ 123456 ∧ (123456 : Int) < 1000 * 1024 * 1024) ∧
    (fixed "ab" 123456).length = "ab".length + 5 :=
  ⟨⟨by decide, by decide⟩, C3_fixed_width "ab" 123456 (by decide) (by decide)⟩

/-- Counterexample to claim C2 as stated: at the in-range rate `r = 50` the
output is `"50.0b"`, which does contain the decimal separator, so "the
output contains no decimal point" fails on `[0, 1000)`. -/
theorem C2_counterexample :
    (0 : Int) ≤ 50 ∧ (50 : Int) < 1000 ∧ fixed "" 50 = "50.0b" ∧
    '.' ∈ (fixed "" 50).data := by
  refine ⟨by decide, by decide, by decide, by decide⟩

/-- On the B/s tier the formatter keeps the prefix, a four-character value
field with decimal digit 0, and the `bpsSign` suffix. -/
theorem fixed_low (pre : String) (r : Int) (h0 : 0 ≤ r) (h1 : r < 1000) :
    fixed pre r =
      pre ++ (if r ≥ 100 then " " ++ fmtIntPad 3 r
        else if r ≥ 10 then fmtIntPad 2 r ++ "." ++ fmtIntPad 1 0
        else " " ++ fmtIntPad 1 r ++ "." ++ fmtIntPad 1 0) ++ bpsSign := by
  rw [fixed, if_neg (by omega), if_neg (by omega),
    if_neg (show ¬r ≥ 1000 * 1024 by omega), if_neg (show ¬r ≥ 1000 by omega)]
  dsimp only
  rw [replaceFirstChar_dot]

/-- No decimal point occurs in a padded integer field. -/
theorem dot_not_mem_fmtIntPad (w n : Nat) : '.' ∉ (fmtIntPad w (n : Int)).data := by
  rw [fmtIntPad, intToStr_coe, padLeft, String.data_append]
  intro h
  rw [List.mem_append] at h
  rcases h with h | h
  · have h2 : '.' ∈ List.replicate (w - (natToStr n).length) ' ' := h
    have h3 := (List.mem_replicate.mp h2).2
    exact absurd h3 (by decide)
  · exact dot_not_mem_natToStr n h

/-- Claim C2 (amended): for every `0 ≤ r < 1000` the output ends in the
`bpsSign` unit marker; the "no decimal point" part holds only for
`100 ≤ r < 1000` (for `r < 100` the output carries a trailing `.0`, as the
counterexample shows). -/
theorem C2_amended_bps (pre : String) (r : Int) (h0 : 0 ≤ r) (h1 : r < 1000) :
    (∃ s, fixed pre r = s ++ bpsSign) ∧
    (100 ≤ r → '.' ∉ (fixed "" r).data) := by
  constructor
  · exact ⟨pre ++ _, by rw [fixed_low pre r h0 h1]⟩
  · intro h100
    rw [fixed_low "" r h0 h1, if_pos (show r ≥ 100 by omega)]
    obtain ⟨n, rfl⟩ : ∃ n : Nat, r = (n : Int) :=
      ⟨r.toNat, (Int.toNat_of_nonneg h0).symm⟩
    intro hmem
    rw [String.data_append, String.data_append, String.data_append] at hmem
    have e0 : ("" : String).data = [] := rfl
    have e1 : (" " : String).data = [' '] := rfl
    have e2 : bpsSign.data = ['b'] := rfl
    rw [e0, e1, e2] at hmem
    simp only [List.nil_append, List.mem_append, List.mem_singleton] at hmem
    rcases hmem with (h | h) | h
    · exact absurd h (by decide)
    · exact dot_not_mem_fmtIntPad 3 n h
    · exact absurd h (by decide)

/-- Witness for the amended C2 at `pre = "x"`, `r = 150`. -/
theorem C2_amended_bps_witness :
    ((0 : Int) ≤ 150 ∧ (150 : Int) < 1000) ∧
    ((∃ s, fixed "x" 150 = s ++ bpsSign) ∧
      (100 ≤ (150 : Int) → '.' ∉ (fixed "" 150).data)) :=
  ⟨⟨by decide, by decide⟩, C2_amended_bps "x" 150 (by decide) (by decide)⟩

/-- Claim C7: on any readable interface-statistics input, two consecutive
invocations over unchanged content leave the carried counters equal to the
current totals, so the second invocation renders both directions as the
zero rate `fixed(sign, 0)` — concretely the `" 0.0b"` rendering. -/
theorem C7_net_idempotent (lines : List String) (avg : Option String)
    (st : NetState) :
    (updateNetUse (some lines) avg (updateNetUse (some lines) avg st).2).1 =
      fixed netReceivedSign 0 ++ " " ++ fixed netTransmittedSign 0 ++
        pingFragment avg ∧
    (updateNetUse (some lines) avg (updateNetUse (some lines) avg st).2).2 =
      (updateNetUse (some lines) avg st).2 ∧
    fixed netReceivedSign 0 = netReceivedSign ++ " 0.0" ++ bpsSign ∧
    fixed netTransmittedSign 0 = netTransmittedSign ++ " 0.0" ++ bpsSign := by
  refine ⟨?_, ?_, by decide, by decide⟩
  · simp only [updateNetUse, sub_self]
  · simp only [updateNetUse]

/-- Claim C9: every sampler maps an absent backing file or failing command
to its static fallback fragment, and the tick still composes and publishes
the joined status line when every input is absent at once (the network
state is passed through unchanged). -/
theorem C9_fallbacks_compose :
    updateVolume none = some (mutedSign ++ " ERR") ∧
    updateWifi none = wifiSignOff ++ " ERR" ∧
    (∀ (avg : Option String) (st : NetState),
      updateNetUse none avg st =
        (netReceivedSign ++ " ERR " ++ netTransmittedSign ++ " ERR", st)) ∧
    (∀ cores : Nat, updateCPUUse none cores = cpuSign ++ "ERR") ∧
    updateCPUTemp none = cpuTempSign ++ " ERR" ∧
    updateMemUse none = memSign ++ "ERR" ∧
    (∀ batts, updatePower none batts = "|ERR") ∧
    updatePower (some "0\n") none = "|ERR" ∧
    updatePowerTime none = some "unknown" ∧
    updateKeyboard none = keyboardSign ++ " default" ∧
    getDistroSign none = some "\uE712" ∧
    (∀ (dateStr : String) (cores : Nat) (st : NetState),
      tick (allAbsent dateStr cores) st = some (failLine dateStr, st)) :=
  ⟨rfl, rfl, fun _ _ => rfl, fun _ => rfl, rfl, rfl, fun _ => rfl, rfl, rfl,
    rfl, rfl, fun _ _ _ => rfl⟩

/-- All-parse inputs never abort the meminfo scan. -/
theorem memScan_isSome (lines : List String) :
    ∀ (used total : Frac) (done : Nat),
      (∀ l ∈ lines, (parseMemLine l).isSome) →
      (memScan used total done lines).isSome := by
  induction lines with
  | nil => intro used total done _; rw [memScan]; rfl
  | cons line rest ih =>
    intro used total done hyp
    rw [memScan]
    by_cases hd : done = 15
    · rw [if_pos hd]; rfl
    · rw [if_neg hd]
      obtain ⟨pv, hpv⟩ := Option.isSome_iff_exists.mp
        (hyp line (List.mem_cons_self line rest))
      rw [hpv]
      have hrest : ∀ l ∈ rest, (parseMemLine l).isSome :=
        fun l hl => hyp l (List.mem_cons_of_mem line hl)
      dsimp only
      split_ifs <;> exact ih _ _ _ hrest

/-- A normally rendered memory fragment is never the ERR fragment (its
second character is a space, the ERR fragment's is `E`). -/
theorem memRender_ne_err (u t : Frac) : memRender u t ≠ memSign ++ "ERR" := by
  intro h
  have h1 : (memRender u t).data.get? 1 = (memSign ++ "ERR").data.get? 1 := by
    rw [h]
  have e1 : (memRender u t).data.get? 1 = some ' ' := by
    rw [memRender]
    rw [String.data_append, String.data_append, String.data_append,
      String.data_append, String.data_append]
    rfl
  have e2 : (memSign ++ "ERR").data.get? 1 = some 'E' := by
    rw [String.data_append]
    rfl
  rw [e1, e2] at h1
  exact absurd h1 (by decide)

/-- Claim C10: if the meminfo file opens and every line scans as
`<name> <number>`, the sampler never returns the ERR fragment even when
some of the four labels are missing: it renders the accumulated values
normally (labels never seen simply contribute their zero initial value). -/
theorem C10_mem_partial_labels (lines : List String)
    (hyp : ∀ l ∈ lines, (parseMemLine l).isSome) :
    ∃ ut : Frac × Frac, memScan ⟨0, 1⟩ ⟨0, 1⟩ 0 lines = some ut ∧
      updateMemUse (some lines) = memRender ut.1 ut.2 ∧
      updateMemUse (some lines) ≠ memSign ++ "ERR" := by
  obtain ⟨ut, hut⟩ := Option.isSome_iff_exists.mp
    (memScan_isSome lines ⟨0, 1⟩ ⟨0, 1⟩ 0 hyp)
  refine ⟨ut, hut, ?_, ?_⟩
  · rw [updateMemUse, hut]
  · rw [updateMemUse, hut]
    exact memRender_ne_err ut.1 ut.2

/-- Witness for C10 on an input missing the `Buffers:` and `Cached:`
labels: the fragment is rendered normally from the two labels seen. -/
theorem C10_mem_partial_labels_witness :
    (∀ l ∈ (["MemTotal: 1048576", "MemFree: 524288"] : List String),
      (parseMemLine l).isSome) ∧
    ∃ ut : Frac × Frac,
      memScan ⟨0, 1⟩ ⟨0, 1⟩ 0 ["MemTotal: 1048576", "MemFree: 524288"] =
        some ut ∧
      updateMemUse (some ["MemTotal: 1048576", "MemFree: 524288"]) =
        memRender ut.1 ut.2 ∧
      updateMemUse (some ["MemTotal: 1048576", "MemFree: 524288"]) ≠
        memSign ++ "ERR" :=
  ⟨by decide, C10_mem_partial_labels _ (by decide)⟩

end Gods
